import Mathlib

/-!
Verification of the multi-rater consensus and
dispute-resolution engine.

The engine lives in the repository as SQL embedded in the setup document
(`labels_equal`, `trg_after_label_insert_fn`, the `case_resolution` /
`assignments` / `labels` / `profiles` / `project_settings` tables) together
with the TypeScript client (`src/api/index.ts`, `src/screens/Case.tsx`).

The embedding below models:
  - jsonb values and the SQL operators the code uses on them
    (`->`, `->>`, `=`, three-valued `AND`);
  - the trigger function as a state transformer executed atomically per
    label insert (the `FOR UPDATE` case lock of the source serializes the
    concurrent triggers, so each lock-protected count-and-decide sequence
    is one atomic step here);
  - the client payload shape built in `Case.tsx`;
  - the client `getReviewMode` from `src/api/index.ts`.

The third-rater pick (`ORDER BY random() LIMIT 1`) is modelled by an
arbitrary choice function `pick`; the SQL guarantees only that the picked
row belongs to the eligible set and that a row is returned whenever the
set is nonempty, which are exactly the hypotheses used below.
-/

/-! ## jsonb values -/

mutual
inductive Jsonb where
  | jnull
  | jbool (b : Bool)
  | jnum (n : Int)
  | jstr (s : String)
  | jarr (elems : JArr)
  | jobj (fields : JObj)
  deriving DecidableEq

inductive JArr where
  | nil
  | cons (hd : Jsonb) (tl : JArr)
  deriving DecidableEq

inductive JObj where
  | nil
  | cons (key : String) (val : Jsonb) (tl : JObj)
  deriving DecidableEq
end

/-- Key lookup in a jsonb object (Postgres jsonb objects have unique keys). -/
def JObj.lookup : JObj → String → Option Jsonb
  | .nil, _ => none
  | .cons k v tl, key => if k = key then some v else tl.lookup key

mutual
/-- Text rendering of a jsonb value, as produced by casting jsonb to text. -/
def Jsonb.render : Jsonb → String
  | .jnull => "null"
  | .jbool b => cond b "true" "false"
  | .jnum n => toString n
  | .jstr s => "\"" ++ s ++ "\""
  | .jarr xs => "[" ++ JArr.renderElems xs ++ "]"
  | .jobj fs => "\x7b" ++ JObj.renderFields fs ++ "\x7d"

def JArr.renderElems : JArr → String
  | .nil => ""
  | .cons x .nil => Jsonb.render x
  | .cons x rest => Jsonb.render x ++ ", " ++ JArr.renderElems rest

def JObj.renderFields : JObj → String
  | .nil => ""
  | .cons k v .nil => "\"" ++ k ++ "\": " ++ Jsonb.render v
  | .cons k v rest => "\"" ++ k ++ "\": " ++ Jsonb.render v ++ ", " ++ JObj.renderFields rest
end

/-- SQL member access on a jsonb object by text key; SQL NULL when the
operand is not an object or the key is absent. -/
def jsonbArrow (j : Jsonb) (key : String) : Option Jsonb :=
  match j with
  | .jobj fs => fs.lookup key
  | _ => none

/-- SQL member access by text key returning text; SQL NULL when the key
is absent or the member is JSON null, the unquoted string for a string
member, and the standard rendering otherwise. -/
def jsonbArrowText (j : Jsonb) (key : String) : Option String :=
  match jsonbArrow j key with
  | none => none
  | some .jnull => none
  | some (.jstr s) => some s
  | some v => some v.render

/-! ## SQL three-valued logic -/

/-- SQL `AND` over nullable booleans (`none` is SQL NULL). -/
def sqlAnd : Option Bool → Option Bool → Option Bool
  | some false, _ => some false
  | _, some false => some false
  | some true, some true => some true
  | _, _ => none

/-- SQL `=` on jsonb operands: NULL-propagating equality. -/
def sqlEqJsonb : Option Jsonb → Option Jsonb → Option Bool
  | some a, some b => some (decide (a = b))
  | _, _ => none

/-- SQL `=` on text operands: NULL-propagating equality. -/
def sqlEqText : Option String → Option String → Option Bool
  | some a, some b => some (decide (a = b))
  | _, _ => none

/-- The consensus evaluator `public.labels_equal(a jsonb, b jsonb)`:

    SELECT (right_ear of a) = (right_ear of b)
       AND (left_ear of a) = (left_ear of b)
       AND (recommendation text of a) = (recommendation text of b);

The result is a SQL boolean, hence nullable. -/
def labels_equal (a b : Jsonb) : Option Bool :=
  sqlAnd
    (sqlAnd
      (sqlEqJsonb (jsonbArrow a "right_ear") (jsonbArrow b "right_ear"))
      (sqlEqJsonb (jsonbArrow a "left_ear") (jsonbArrow b "left_ear")))
    (sqlEqText (jsonbArrowText a "recommendation") (jsonbArrowText b "recommendation"))

/-! ## Client label payloads (src/screens/Case.tsx) -/

/-- Per-ear form fields (`EarForm` in Case.tsx). -/
structure EarForm where
  loss_type : String
  severity : String
  pattern : String
  deriving DecidableEq

/-- The label form state (`FormState` in Case.tsx); `confidence` is sent
outside the payload and `notes` inside it. -/
structure FormState where
  right : EarForm
  left : EarForm
  recommendation : String
  confidence : Nat
  notes : String
  deriving DecidableEq

def earToJsonb (e : EarForm) : Jsonb :=
  .jobj (.cons "loss_type" (.jstr e.loss_type)
        (.cons "severity" (.jstr e.severity)
        (.cons "pattern" (.jstr e.pattern) .nil)))

/-- The payload object built by `handleSubmit` in Case.tsx:
`{ right_ear, left_ear, recommendation, notes }`. -/
def payloadToJsonb (f : FormState) : Jsonb :=
  .jobj (.cons "right_ear" (earToJsonb f.right)
        (.cons "left_ear" (earToJsonb f.left)
        (.cons "recommendation" (.jstr f.recommendation)
        (.cons "notes" (.jstr f.notes) .nil))))

/-! ## Database state -/

/-- A row of `public.labels` (uuid and timestamptz modelled as Nat). -/
structure LabelRow where
  id : Nat
  case_id : Nat
  expert_user_id : Nat
  payload : Jsonb
  created_at : Nat
  deriving DecidableEq

/-- A row of `public.case_resolution` (`case_id` is UNIQUE in the schema). -/
structure ResolutionRow where
  case_id : Nat
  status : String
  final_label_id : Option Nat
  deriving DecidableEq

/-- A row of `public.assignments` (`(case_id, expert_user_id)` UNIQUE). -/
structure AssignmentRow where
  case_id : Nat
  expert_user_id : Nat
  deriving DecidableEq

/-- A row of `public.profiles`. -/
structure ProfileRow where
  user_id : Nat
  role : String
  deriving DecidableEq

/-- A row of `public.project_settings`; the `review_mode` column is
`NOT NULL` with a CHECK constraint, tracked as hypotheses where needed. -/
structure SettingsRow where
  id : Nat
  review_mode : Option String
  deriving DecidableEq

/-- The tables the engine reads and writes, in insertion (storage) order. -/
structure DBState where
  labels : List LabelRow
  case_resolution : List ResolutionRow
  assignments : List AssignmentRow
  profiles : List ProfileRow
  project_settings : List SettingsRow
  deriving DecidableEq

/-! ## Queries used by the trigger -/

/-- `SELECT * FROM labels WHERE case_id = c` (storage order). -/
def labelsFor (s : DBState) (c : Nat) : List LabelRow :=
  s.labels.filter (fun l => l.case_id == c)

/-- `EXISTS (SELECT 1 FROM case_resolution WHERE case_id = c)`. -/
def resolutionExists (s : DBState) (c : Nat) : Bool :=
  s.case_resolution.any (fun r => r.case_id == c)

/-- The resolution rows recorded for a case. -/
def resolutionsFor (s : DBState) (c : Nat) : List ResolutionRow :=
  s.case_resolution.filter (fun r => r.case_id == c)

/-- `SELECT * FROM labels WHERE case_id = c ORDER BY created_at ASC LIMIT 1`:
a top-1 scan replacing the current best only on a strictly earlier
timestamp, so among equal timestamps the first row in storage order wins
(the source has no secondary sort key). -/
def firstByCreatedAsc (rows : List LabelRow) : Option LabelRow :=
  rows.foldl
    (fun best r =>
      match best with
      | none => some r
      | some m => if r.created_at < m.created_at then some r else some m)
    none

/-- `SELECT * FROM labels WHERE case_id = c ORDER BY created_at DESC LIMIT 1`:
a top-1 scan replacing the current best only on a strictly later timestamp,
so among equal timestamps the first row in storage order wins
(the source has no secondary sort key). -/
def firstByCreatedDesc (rows : List LabelRow) : Option LabelRow :=
  rows.foldl
    (fun best r =>
      match best with
      | none => some r
      | some m => if m.created_at < r.created_at then some r else some m)
    none

/-- `SELECT review_mode FROM project_settings WHERE id = 1` into `v_mode`
(SQL NULL when the row is missing; the column itself is nullable only in
the model). -/
def readReviewMode (s : DBState) : Option String :=
  (s.project_settings.find? (fun r => r.id == 1)).bind (fun r => r.review_mode)

/-- The recruiter pool:

    SELECT p.user_id FROM profiles p
    WHERE p.role = expert
      AND p.user_id NOT IN
        (SELECT expert_user_id FROM assignments WHERE case_id = c)
-/
def eligibleExperts (profiles : List ProfileRow) (assignments : List AssignmentRow)
    (c : Nat) : List Nat :=
  (profiles.filter (fun p =>
    p.role == "expert" &&
      !(assignments.any (fun a => a.case_id == c && a.expert_user_id == p.user_id)))).map
    (fun p => p.user_id)

/-- `INSERT INTO case_resolution ... ON CONFLICT (case_id) DO NOTHING`. -/
def insertResolution (s : DBState) (r : ResolutionRow) : DBState :=
  if s.case_resolution.any (fun x => x.case_id == r.case_id) then s
  else { s with case_resolution := s.case_resolution ++ [r] }

/-- `INSERT INTO assignments ... ON CONFLICT (case_id, expert_user_id) DO NOTHING`. -/
def insertAssignment (s : DBState) (a : AssignmentRow) : DBState :=
  if s.assignments.any (fun x => x.case_id == a.case_id && x.expert_user_id == a.expert_user_id)
  then s
  else { s with assignments := s.assignments ++ [a] }

/-! ## The trigger function -/

/-- `public.trg_after_label_insert_fn()`, fired AFTER INSERT on `labels`
for the row `newLabel` (already visible in `s`). The `PERFORM ... FOR
UPDATE` case lock makes the whole body one atomic step between concurrent
submitters; `pick` stands for `ORDER BY random() LIMIT 1`. -/
def trg_after_label_insert_fn (pick : List Nat → Option Nat)
    (s : DBState) (newLabel : LabelRow) : DBState :=
  let rows := labelsFor s newLabel.case_id
  if rows.length ≠ 2 then s
  else if resolutionExists s newLabel.case_id then s
  else
    match firstByCreatedAsc rows, firstByCreatedDesc rows with
    | some la, some lb =>
      if labels_equal la.payload lb.payload = some true then
        insertResolution s
          { case_id := newLabel.case_id, status := "agreed", final_label_id := some la.id }
      else
        let vmode := (readReviewMode s).getD "triage"
        if vmode = "dual" then
          insertResolution s
            { case_id := newLabel.case_id, status := "escalated", final_label_id := none }
        else
          let s1 := insertResolution s
            { case_id := newLabel.case_id, status := "disputed", final_label_id := none }
          match pick (eligibleExperts s1.profiles s1.assignments newLabel.case_id) with
          | some e => insertAssignment s1 { case_id := newLabel.case_id, expert_user_id := e }
          | none => s1
    | _, _ => s

/-- Append a label row to storage. -/
def withLabel (s : DBState) (l : LabelRow) : DBState :=
  { s with labels := s.labels ++ [l] }

/-- One accepted submission write: the label insert followed
synchronously, in the same transaction, by the trigger. -/
def afterLabelInsert (pick : List Nat → Option Nat) (s : DBState) (l : LabelRow) : DBState :=
  trg_after_label_insert_fn pick (withLabel s l) l

/-- A sequence of submission appends processed in order. -/
def applyInserts (pick : List Nat → Option Nat) (s : DBState) (ls : List LabelRow) : DBState :=
  ls.foldl (afterLabelInsert pick) s

/-! ## Client-side review mode accessor (src/api/index.ts) -/

/-- `getReviewMode` from `src/api/index.ts`:

    supabase.from(project_settings).select(review_mode).eq(id, 1).single()

`.single()` yields an error unless exactly one row matches, and that error
is thrown; otherwise the function returns review_mode with a triage fallback. -/
def getReviewMode (project_settings : List SettingsRow) : Except String String :=
  match project_settings.filter (fun r => r.id == 1) with
  | [row] => Except.ok (row.review_mode.getD "triage")
  | _ => Except.error "PGRST116: JSON object requested, multiple (or no) rows returned"

/-! ## Concrete fixtures used by witnesses and counterexamples -/

/-- A fully normal ear label. -/
def earNormal : EarForm := ⟨"normal", "normal", "flat"⟩

/-- A mild sensorineural ear label. -/
def earMild : EarForm := ⟨"sensorineural", "mild", "sloping"⟩

def payloadA : Jsonb := payloadToJsonb ⟨earNormal, earNormal, "none", 3, ""⟩

def payloadB : Jsonb := payloadToJsonb ⟨earMild, earNormal, "monitor", 4, "check"⟩

def labelA : LabelRow := ⟨1, 1, 10, payloadA, 100⟩

def labelB : LabelRow := ⟨2, 1, 20, payloadB, 200⟩

/-- The same submission as `labelB` but sharing the timestamp of `labelA`. -/
def labelBtie : LabelRow := ⟨2, 1, 20, payloadB, 100⟩

def profilesABC : List ProfileRow := [⟨10, "expert"⟩, ⟨20, "expert"⟩, ⟨30, "expert"⟩]

def assignAB : List AssignmentRow := [⟨1, 10⟩, ⟨1, 20⟩]

def settingsTriage : List SettingsRow := [⟨1, some "triage"⟩]

def settingsDual : List SettingsRow := [⟨1, some "dual"⟩]

/-- Case 1 already holds the submission of rater A; policy is triage. -/
def disputeState : DBState := ⟨[labelA], [], assignAB, profilesABC, settingsTriage⟩

/-- Case 1 already holds the submission of rater A; policy is dual. -/
def dualState : DBState := ⟨[labelA], [], assignAB, profilesABC, settingsDual⟩

/-- Case 1 already holds the submission of rater A; no project_settings row. -/
def noPolicyState : DBState := ⟨[labelA], [], assignAB, profilesABC, []⟩

/-- No submissions yet. -/
def emptyState : DBState := ⟨[], [], assignAB, profilesABC, settingsTriage⟩

/-- An ear object missing the required `severity` leaf subfield. -/
def earNoSeverity : Jsonb :=
  .jobj (.cons "loss_type" (.jstr "normal") (.cons "pattern" (.jstr "flat") .nil))

/-- A malformed payload whose ear objects lack `severity`. -/
def payloadNoSevA : Jsonb :=
  .jobj (.cons "right_ear" earNoSeverity
        (.cons "left_ear" earNoSeverity
        (.cons "recommendation" (.jstr "none")
        (.cons "notes" (.jstr "first rater") .nil))))

/-- A second, distinct payload with the same identically malformed ears. -/
def payloadNoSevB : Jsonb :=
  .jobj (.cons "right_ear" earNoSeverity
        (.cons "left_ear" earNoSeverity
        (.cons "recommendation" (.jstr "none")
        (.cons "notes" (.jstr "second rater") .nil))))

/-! ## Lemmas about the SQL logic -/

theorem sqlAnd_eq_some_true {x y : Option Bool} :
    sqlAnd x y = some true ↔ x = some true ∧ y = some true := by
  revert x y; decide

theorem sqlEqJsonb_none_left (v : Option Jsonb) : sqlEqJsonb none v = none := by
  cases v <;> rfl

theorem sqlEqJsonb_none_right (u : Option Jsonb) : sqlEqJsonb u none = none := by
  cases u <;> rfl

theorem sqlEqText_none_left (v : Option String) : sqlEqText none v = none := by
  cases v <;> rfl

theorem sqlEqText_none_right (u : Option String) : sqlEqText u none = none := by
  cases u <;> rfl

theorem sqlEqJsonb_symm (u v : Option Jsonb) : sqlEqJsonb u v = sqlEqJsonb v u := by
  cases u with
  | none => cases v <;> rfl
  | some a =>
    cases v with
    | none => rfl
    | some b => simp [sqlEqJsonb]; exact eq_comm

theorem sqlEqText_symm (u v : Option String) : sqlEqText u v = sqlEqText v u := by
  cases u with
  | none => cases v <;> rfl
  | some a =>
    cases v with
    | none => rfl
    | some b => simp [sqlEqText]; exact eq_comm

/-- C9: `labels_equal` is symmetric: for all jsonb payloads `a` and `b`,
`labels_equal a b = labels_equal b a`, so the consensus outcome does not
depend on which of the two submissions is passed first. -/
theorem labels_equal_symm (a b : Jsonb) : labels_equal a b = labels_equal b a := by
  unfold labels_equal
  rw [sqlEqJsonb_symm (jsonbArrow a "right_ear") (jsonbArrow b "right_ear"),
    sqlEqJsonb_symm (jsonbArrow a "left_ear") (jsonbArrow b "left_ear"),
    sqlEqText_symm (jsonbArrowText a "recommendation") (jsonbArrowText b "recommendation")]

/-- C7 (amended): if any of the subfields the evaluator actually compares
(`right_ear`, `left_ear`, `recommendation`) is absent from either payload,
the consensus evaluator never reports equality: the SQL comparison yields
NULL or false, the engine takes the dispute path, and no error is raised
(the evaluator is a total function). The original claim, quantified over
every required decision-relevant subfield including the per-ear leaves, is
refuted by `missing_severity_pair_compares_equal` below: the code compares
whole ear objects, so a leaf subfield missing identically from both
payloads leaves the partial objects equal. -/
theorem missing_subfield_never_equal (a b : Jsonb)
    (h : jsonbArrow a "right_ear" = none ∨ jsonbArrow b "right_ear" = none ∨
         jsonbArrow a "left_ear" = none ∨ jsonbArrow b "left_ear" = none ∨
         jsonbArrowText a "recommendation" = none ∨ jsonbArrowText b "recommendation" = none) :
    labels_equal a b ≠ some true := by
  intro he
  unfold labels_equal at he
  rcases sqlAnd_eq_some_true.mp he with ⟨h12, h3⟩
  rcases sqlAnd_eq_some_true.mp h12 with ⟨h1, h2⟩
  rcases h with h | h | h | h | h | h
  · rw [h, sqlEqJsonb_none_left] at h1; cases h1
  · rw [h, sqlEqJsonb_none_right] at h1; cases h1
  · rw [h, sqlEqJsonb_none_left] at h2; cases h2
  · rw [h, sqlEqJsonb_none_right] at h2; cases h2
  · rw [h, sqlEqText_none_left] at h3; cases h3
  · rw [h, sqlEqText_none_right] at h3; cases h3

theorem missing_subfield_never_equal_witness :
    (jsonbArrow (Jsonb.jobj .nil) "right_ear" = none ∨
     jsonbArrow (payloadToJsonb ⟨⟨"normal", "normal", "flat"⟩, ⟨"normal", "normal", "flat"⟩,
        "none", 3, ""⟩) "right_ear" = none ∨
     jsonbArrow (Jsonb.jobj .nil) "left_ear" = none ∨
     jsonbArrow (payloadToJsonb ⟨⟨"normal", "normal", "flat"⟩, ⟨"normal", "normal", "flat"⟩,
        "none", 3, ""⟩) "left_ear" = none ∨
     jsonbArrowText (Jsonb.jobj .nil) "recommendation" = none ∨
     jsonbArrowText (payloadToJsonb ⟨⟨"normal", "normal", "flat"⟩, ⟨"normal", "normal", "flat"⟩,
        "none", 3, ""⟩) "recommendation" = none) ∧
    labels_equal (Jsonb.jobj .nil)
      (payloadToJsonb ⟨⟨"normal", "normal", "flat"⟩, ⟨"normal", "normal", "flat"⟩,
        "none", 3, ""⟩) ≠ some true :=
  ⟨by decide,
   missing_subfield_never_equal (Jsonb.jobj .nil)
     (payloadToJsonb ⟨⟨"normal", "normal", "flat"⟩, ⟨"normal", "normal", "flat"⟩, "none", 3, ""⟩)
     (by decide)⟩

/-- C7 counterexample to the original claim: both payloads lack the
required per-ear `severity` subfield (a decision-relevant leaf), yet the
evaluator reports them EQUAL — the SQL compares the whole (partial) ear
objects — and the engine records an `agreed` resolution instead of
proceeding down the dispute path. -/
theorem missing_severity_pair_compares_equal :
    payloadNoSevA ≠ payloadNoSevB ∧
    jsonbArrow payloadNoSevA "right_ear" = some earNoSeverity ∧
    jsonbArrow payloadNoSevB "right_ear" = some earNoSeverity ∧
    jsonbArrow earNoSeverity "severity" = none ∧
    labels_equal payloadNoSevA payloadNoSevB = some true ∧
    (afterLabelInsert List.head?
        ⟨[⟨1, 1, 10, payloadNoSevA, 100⟩], [], assignAB, profilesABC, settingsTriage⟩
        ⟨2, 1, 20, payloadNoSevB, 200⟩).case_resolution =
      [{ case_id := 1, status := "agreed", final_label_id := some 1 }] := by
  decide

/-! ## The consensus evaluator on well-formed client payloads -/

theorem jsonbArrow_payload_right (f : FormState) :
    jsonbArrow (payloadToJsonb f) "right_ear" = some (earToJsonb f.right) := rfl

theorem jsonbArrow_payload_left (f : FormState) :
    jsonbArrow (payloadToJsonb f) "left_ear" = some (earToJsonb f.left) := rfl

theorem jsonbArrowText_payload_rec (f : FormState) :
    jsonbArrowText (payloadToJsonb f) "recommendation" = some f.recommendation := rfl

theorem earToJsonb_inj {x y : EarForm} : earToJsonb x = earToJsonb y ↔ x = y := by
  cases x; cases y; simp [earToJsonb]

/-- C2: on label payloads of the shape the client submits, `labels_equal`
returns true exactly when the two forms agree on per-ear loss type,
severity and frequency pattern for both ears and on the overall
recommendation; the free-text `notes` (and the separately stored
`confidence`) never affect the result. -/
theorem labels_equal_decision_fields_iff (f g : FormState) :
    labels_equal (payloadToJsonb f) (payloadToJsonb g) = some true ↔
      f.right = g.right ∧ f.left = g.left ∧ f.recommendation = g.recommendation := by
  unfold labels_equal
  rw [jsonbArrow_payload_right f, jsonbArrow_payload_right g,
    jsonbArrow_payload_left f, jsonbArrow_payload_left g,
    jsonbArrowText_payload_rec f, jsonbArrowText_payload_rec g]
  simp [sqlEqJsonb, sqlEqText, sqlAnd_eq_some_true, earToJsonb_inj, and_assoc]

/-! ## Client-side review mode accessor -/

/-- C10: when no `project_settings` row with id 1 exists, the client
`getReviewMode` surfaces the `.single()` error (the call throws) instead of
returning the `triage` default; it returns a value only when the row
exists, the value is the stored one (so the trailing triage
fallback never fires under the NOT NULL constraint), and by the CHECK
constraint that value is `dual` or `triage`. -/
theorem getReviewMode_error_when_missing (tbl : List SettingsRow)
    (hcheck : ∀ r ∈ tbl, r.id = 1 → r.review_mode = some "dual" ∨ r.review_mode = some "triage") :
    ((∀ r ∈ tbl, r.id ≠ 1) → ∃ msg, getReviewMode tbl = Except.error msg) ∧
    (∀ v, getReviewMode tbl = Except.ok v →
      (v = "dual" ∨ v = "triage") ∧ ∃ r ∈ tbl, r.id = 1 ∧ r.review_mode = some v) := by
  constructor
  · intro habs
    have hfilter : tbl.filter (fun r => r.id == 1) = [] := by
      rw [List.filter_eq_nil_iff]
      intro r hr
      simp [habs r hr]
    unfold getReviewMode
    rw [hfilter]
    exact ⟨_, rfl⟩
  · intro v hv
    unfold getReviewMode at hv
    cases hfl : tbl.filter (fun r => r.id == 1) with
    | nil => rw [hfl] at hv; cases hv
    | cons row rest =>
      cases rest with
      | nil =>
        rw [hfl] at hv
        have hrow : row ∈ tbl.filter (fun r => r.id == 1) := by rw [hfl]; exact List.mem_singleton.mpr rfl
        have hmem := (List.mem_filter.mp hrow).1
        have hid : row.id = 1 := by
          have := (List.mem_filter.mp hrow).2
          simpa using this
        have hval : v = row.review_mode.getD "triage" := by
          cases hv; rfl
        rcases hcheck row hmem hid with h | h
        · refine ⟨Or.inl ?_, row, hmem, hid, ?_⟩
          · rw [hval, h]; rfl
          · rw [h, hval, h]; rfl
        · refine ⟨Or.inr ?_, row, hmem, hid, ?_⟩
          · rw [hval, h]; rfl
          · rw [h, hval, h]; rfl
      | cons r2 rest2 => rw [hfl] at hv; cases hv

theorem getReviewMode_error_when_missing_witness :
    (∀ r ∈ ([] : List SettingsRow), r.id = 1 →
      r.review_mode = some "dual" ∨ r.review_mode = some "triage") ∧
    (∃ msg, getReviewMode [] = Except.error msg) :=
  ⟨by simp, (getReviewMode_error_when_missing [] (by simp)).1 (by simp)⟩

/-! ## Engine frame lemmas -/

theorem insertResolution_labels (s : DBState) (r : ResolutionRow) :
    (insertResolution s r).labels = s.labels := by
  unfold insertResolution; split <;> rfl

theorem insertResolution_assignments (s : DBState) (r : ResolutionRow) :
    (insertResolution s r).assignments = s.assignments := by
  unfold insertResolution; split <;> rfl

theorem insertResolution_profiles (s : DBState) (r : ResolutionRow) :
    (insertResolution s r).profiles = s.profiles := by
  unfold insertResolution; split <;> rfl

theorem insertAssignment_case_resolution (s : DBState) (a : AssignmentRow) :
    (insertAssignment s a).case_resolution = s.case_resolution := by
  unfold insertAssignment; split <;> rfl

theorem resolutionsFor_eq_nil {s : DBState} {c : Nat}
    (h : resolutionExists s c = false) : resolutionsFor s c = [] := by
  unfold resolutionExists at h
  unfold resolutionsFor
  rw [List.filter_eq_nil_iff]
  intro r hr hpr
  exact absurd hpr (by simpa using List.any_eq_false.mp h r hr)

/-- Every submission append either leaves `case_resolution` untouched, or
(only when no resolution existed for the case of the new label) appends exactly
one row for that case. -/
theorem afterLabelInsert_resolution_cases (pick : List Nat → Option Nat)
    (s : DBState) (l : LabelRow) :
    (afterLabelInsert pick s l).case_resolution = s.case_resolution ∨
    (resolutionExists s l.case_id = false ∧
      ∃ r : ResolutionRow, r.case_id = l.case_id ∧
        (afterLabelInsert pick s l).case_resolution = s.case_resolution ++ [r]) := by
  unfold afterLabelInsert trg_after_label_insert_fn
  dsimp only
  split
  · left; rfl
  · rename_i hlen
    split
    · left; rfl
    · rename_i hres
      have hres2 : resolutionExists s l.case_id = false := by
        have h3 : resolutionExists (withLabel s l) l.case_id = false := by simpa using hres
        exact h3
      split <;> try (left; rfl)
      rename_i la lb
      split
      · unfold insertResolution
        split
        · rename_i hany
          exact absurd (show resolutionExists (withLabel s l) l.case_id = true from hany) hres
        · right; exact ⟨hres2, _, rfl, rfl⟩
      · split
        · unfold insertResolution
          split
          · rename_i hany
            exact absurd (show resolutionExists (withLabel s l) l.case_id = true from hany) hres
          · right; exact ⟨hres2, _, rfl, rfl⟩
        · split
          · rw [insertAssignment_case_resolution]
            unfold insertResolution
            split
            · rename_i hany
              exact absurd (show resolutionExists (withLabel s l) l.case_id = true from hany) hres
            · right; exact ⟨hres2, _, rfl, rfl⟩
          · unfold insertResolution
            split
            · rename_i hany
              exact absurd (show resolutionExists (withLabel s l) l.case_id = true from hany) hres
            · right; exact ⟨hres2, _, rfl, rfl⟩

/-- Per-case view of the previous lemma. -/
theorem afterLabelInsert_resolutionsFor (pick : List Nat → Option Nat)
    (s : DBState) (l : LabelRow) (c : Nat) :
    resolutionsFor (afterLabelInsert pick s l) c = resolutionsFor s c ∨
    (resolutionsFor s c = [] ∧
      ∃ r : ResolutionRow, resolutionsFor (afterLabelInsert pick s l) c = [r]) := by
  rcases afterLabelInsert_resolution_cases pick s l with heq | ⟨hnil, r0, hc0, hadd⟩
  · left; unfold resolutionsFor; rw [heq]
  · by_cases hceq : c = l.case_id
    · subst hceq
      right
      refine ⟨resolutionsFor_eq_nil hnil, r0, ?_⟩
      unfold resolutionsFor
      rw [hadd, List.filter_append,
        show s.case_resolution.filter (fun r => r.case_id == l.case_id) = []
          from resolutionsFor_eq_nil hnil]
      simp [hc0]
    · left
      unfold resolutionsFor
      rw [hadd, List.filter_append]
      have hone : [r0].filter (fun r => r.case_id == c) = [] := by
        simp only [List.filter, hc0]
        have : (l.case_id == c) = false := by
          simp
          exact fun hh => hceq hh.symm
        rw [this]
      rw [hone, List.append_nil]

/-- C1: for every case and every sequence of submission appends processed
by the engine (each append running the trigger atomically under the case
lock), at most one `case_resolution` row exists for that case at every
point, and once a resolution row exists it is never recreated or altered:
the engine performs the transition into a terminal status exactly once. -/
theorem resolution_at_most_one_and_immutable (pick : List Nat → Option Nat)
    (s : DBState) (ls : List LabelRow) (c : Nat)
    (h : (resolutionsFor s c).length ≤ 1) :
    (resolutionsFor (applyInserts pick s ls) c).length ≤ 1 ∧
    ∀ r : ResolutionRow, resolutionsFor s c = [r] →
      resolutionsFor (applyInserts pick s ls) c = [r] := by
  induction ls generalizing s with
  | nil => exact ⟨h, fun r hr => hr⟩
  | cons l rest ih =>
    rcases afterLabelInsert_resolutionsFor pick s l c with heq | ⟨hnil, r0, hadd⟩
    · have ihres := ih (afterLabelInsert pick s l) (by rw [heq]; exact h)
      refine ⟨ihres.1, fun r hr => ihres.2 r ?_⟩
      rw [heq]; exact hr
    · have h1 : (resolutionsFor (afterLabelInsert pick s l) c).length ≤ 1 := by
        rw [hadd]; simp
      have ihres := ih (afterLabelInsert pick s l) h1
      refine ⟨ihres.1, fun r hr => ?_⟩
      rw [hnil] at hr
      cases hr

/-- C4: outside the decision point — submission count (including the new
row) different from 2, or a resolution already recorded — a submission
append changes nothing beyond the label row itself: the whole state equals
the state with just the label appended, so no resolution row is created or
modified and no assignment is written. -/
theorem engine_noop_outside_decision_point (pick : List Nat → Option Nat)
    (s : DBState) (l : LabelRow)
    (h : (labelsFor (withLabel s l) l.case_id).length ≠ 2 ∨
         resolutionExists (withLabel s l) l.case_id = true) :
    afterLabelInsert pick s l = withLabel s l ∧
    (afterLabelInsert pick s l).case_resolution = s.case_resolution ∧
    (afterLabelInsert pick s l).assignments = s.assignments := by
  have hmain : afterLabelInsert pick s l = withLabel s l := by
    unfold afterLabelInsert trg_after_label_insert_fn
    dsimp only
    rcases h with h | h
    · rw [if_pos h]
    · by_cases h1 : (labelsFor (withLabel s l) l.case_id).length ≠ 2
      · rw [if_pos h1]
      · rw [if_neg h1, if_pos h]
  exact ⟨hmain, by rw [hmain]; rfl, by rw [hmain]; rfl⟩

/-! ## The dual-mode decision point -/

/-- C5: at the decision point (exactly 2 submissions including the new
one, no prior resolution), when the two fetched payloads compare unequal
and the review mode read is `dual`, the engine records exactly one
`escalated` resolution and writes no assignment: the assignment table
after the transition equals the one before it. -/
theorem dual_mismatch_escalates_no_assignment (pick : List Nat → Option Nat)
    (s : DBState) (l la lb : LabelRow)
    (hc : (labelsFor (withLabel s l) l.case_id).length = 2)
    (hres : resolutionExists (withLabel s l) l.case_id = false)
    (ha : firstByCreatedAsc (labelsFor (withLabel s l) l.case_id) = some la)
    (hb : firstByCreatedDesc (labelsFor (withLabel s l) l.case_id) = some lb)
    (hneq : ¬ labels_equal la.payload lb.payload = some true)
    (hmode : readReviewMode s = some "dual") :
    afterLabelInsert pick s l =
      { s with labels := s.labels ++ [l],
               case_resolution := s.case_resolution ++
                 [{ case_id := l.case_id, status := "escalated", final_label_id := none }] } ∧
    (afterLabelInsert pick s l).assignments = s.assignments := by
  have hmain : afterLabelInsert pick s l =
      { s with labels := s.labels ++ [l],
               case_resolution := s.case_resolution ++
                 [{ case_id := l.case_id, status := "escalated", final_label_id := none }] } := by
    unfold afterLabelInsert trg_after_label_insert_fn
    dsimp only
    rw [if_neg (fun hn => hn hc), if_neg (by simp [hres]), ha, hb]
    dsimp only
    rw [if_neg hneq,
      if_pos (show (readReviewMode (withLabel s l)).getD "triage" = "dual" by
        rw [show readReviewMode (withLabel s l) = some "dual" from hmode]; rfl)]
    unfold insertResolution
    split
    · rename_i hg
      exact absurd (show resolutionExists (withLabel s l) l.case_id = true from hg) (by simp [hres])
    · rfl
  exact ⟨hmain, by rw [hmain]⟩

/-! ## The triage-path decision point -/

/-- Shared outcome of the mismatch branch whenever the (possibly
defaulted) review mode read is not `dual`: the engine records exactly one
`disputed` resolution, and the recruiter appends exactly one assignment
for an eligible expert when one exists and nothing otherwise. -/
theorem mismatch_nondual_outcome (pick : List Nat → Option Nat)
    (hmem : ∀ (el : List Nat) (e : Nat), pick el = some e → e ∈ el)
    (hsome : ∀ el : List Nat, el ≠ [] → (pick el).isSome = true)
    (s : DBState) (l la lb : LabelRow)
    (hc : (labelsFor (withLabel s l) l.case_id).length = 2)
    (hres : resolutionExists (withLabel s l) l.case_id = false)
    (ha : firstByCreatedAsc (labelsFor (withLabel s l) l.case_id) = some la)
    (hb : firstByCreatedDesc (labelsFor (withLabel s l) l.case_id) = some lb)
    (hneq : ¬ labels_equal la.payload lb.payload = some true)
    (hmode : ¬ (readReviewMode s).getD "triage" = "dual") :
    (afterLabelInsert pick s l).case_resolution =
      s.case_resolution ++ [{ case_id := l.case_id, status := "disputed", final_label_id := none }] ∧
    (eligibleExperts s.profiles s.assignments l.case_id = [] →
      (afterLabelInsert pick s l).assignments = s.assignments) ∧
    (eligibleExperts s.profiles s.assignments l.case_id ≠ [] →
      ∃ e : Nat,
        (∃ p ∈ s.profiles, p.user_id = e ∧ p.role = "expert") ∧
        (∀ a ∈ s.assignments, ¬(a.case_id = l.case_id ∧ a.expert_user_id = e)) ∧
        (afterLabelInsert pick s l).assignments =
          s.assignments ++ [{ case_id := l.case_id, expert_user_id := e }]) := by
  have hs1 : insertResolution (withLabel s l)
      { case_id := l.case_id, status := "disputed", final_label_id := none } =
      { s with labels := s.labels ++ [l],
               case_resolution := s.case_resolution ++
                 [{ case_id := l.case_id, status := "disputed", final_label_id := none }] } := by
    unfold insertResolution
    split
    · rename_i hg
      exact absurd (show resolutionExists (withLabel s l) l.case_id = true from hg) (by simp [hres])
    · rfl
  have hmain : afterLabelInsert pick s l =
      match pick (eligibleExperts s.profiles s.assignments l.case_id) with
      | some e =>
          insertAssignment
            { s with labels := s.labels ++ [l],
                     case_resolution := s.case_resolution ++
                       [{ case_id := l.case_id, status := "disputed", final_label_id := none }] }
            { case_id := l.case_id, expert_user_id := e }
      | none =>
          { s with labels := s.labels ++ [l],
                   case_resolution := s.case_resolution ++
                     [{ case_id := l.case_id, status := "disputed", final_label_id := none }] } := by
    unfold afterLabelInsert trg_after_label_insert_fn
    dsimp only
    rw [if_neg (fun hn => hn hc), if_neg (by simp [hres]), ha, hb]
    dsimp only
    rw [if_neg hneq,
      if_neg (show ¬ (readReviewMode (withLabel s l)).getD "triage" = "dual" from hmode),
      hs1]
  rcases hp : pick (eligibleExperts s.profiles s.assignments l.case_id) with _ | e
  · rw [hp] at hmain
    dsimp only at hmain
    refine ⟨by rw [hmain], fun _ => by rw [hmain], fun hne => ?_⟩
    have hk := hsome (eligibleExperts s.profiles s.assignments l.case_id) hne
    rw [hp] at hk
    cases hk
  · rw [hp] at hmain
    dsimp only at hmain
    have hmem0 : e ∈ eligibleExperts s.profiles s.assignments l.case_id := hmem _ e hp
    have hmem2 := hmem0
    unfold eligibleExperts at hmem2
    rcases List.mem_map.mp hmem2 with ⟨p, hpfil, hpe⟩
    rcases List.mem_filter.mp hpfil with ⟨hpmem, hpred⟩
    rw [Bool.and_eq_true] at hpred
    obtain ⟨hrole, hnot⟩ := hpred
    have hrole2 : p.role = "expert" := by simpa using hrole
    have hany : s.assignments.any
        (fun a => a.case_id == l.case_id && a.expert_user_id == p.user_id) = false := by
      simpa using hnot
    have hanye : s.assignments.any
        (fun a => a.case_id == l.case_id && a.expert_user_id == e) = false := by
      rw [← hpe]; exact hany
    have hins : insertAssignment
        { s with labels := s.labels ++ [l],
                 case_resolution := s.case_resolution ++
                   [{ case_id := l.case_id, status := "disputed", final_label_id := none }] }
        { case_id := l.case_id, expert_user_id := e } =
        { s with labels := s.labels ++ [l],
                 case_resolution := s.case_resolution ++
                   [{ case_id := l.case_id, status := "disputed", final_label_id := none }],
                 assignments := s.assignments ++ [{ case_id := l.case_id, expert_user_id := e }] } := by
      unfold insertAssignment
      split
      · rename_i hg
        exact absurd
          (show s.assignments.any
            (fun a => a.case_id == l.case_id && a.expert_user_id == e) = true from hg)
          (by simp [hanye])
      · rfl
    rw [hins] at hmain
    refine ⟨by rw [hmain], fun h0 => ?_, fun _ => ?_⟩
    · rw [h0] at hmem0
      cases hmem0
    · refine ⟨e, ⟨p, hpmem, hpe, hrole2⟩, fun a hamem hcon => ?_, by rw [hmain]⟩
      rcases hcon with ⟨hac, hae⟩
      exact absurd (by simp [hac, hae] :
          (a.case_id == l.case_id && a.expert_user_id == e) = true)
        (by simpa using List.any_eq_false.mp hanye a hamem)

/-- C6: at the decision point, when the payloads compare unequal and the
review mode is `triage`, the engine records one `disputed` resolution;
if at least one eligible rater exists (a profile with role `expert` and
no assignment for this case) exactly one new assignment is appended and
its rater has role `expert` and was not previously assigned; if none
exists, no assignment is added and the step completes without error. -/
theorem triage_mismatch_disputed_recruits (pick : List Nat → Option Nat)
    (hmem : ∀ (el : List Nat) (e : Nat), pick el = some e → e ∈ el)
    (hsome : ∀ el : List Nat, el ≠ [] → (pick el).isSome = true)
    (s : DBState) (l la lb : LabelRow)
    (hc : (labelsFor (withLabel s l) l.case_id).length = 2)
    (hres : resolutionExists (withLabel s l) l.case_id = false)
    (ha : firstByCreatedAsc (labelsFor (withLabel s l) l.case_id) = some la)
    (hb : firstByCreatedDesc (labelsFor (withLabel s l) l.case_id) = some lb)
    (hneq : ¬ labels_equal la.payload lb.payload = some true)
    (hmode : readReviewMode s = some "triage") :
    (afterLabelInsert pick s l).case_resolution =
      s.case_resolution ++ [{ case_id := l.case_id, status := "disputed", final_label_id := none }] ∧
    (eligibleExperts s.profiles s.assignments l.case_id = [] →
      (afterLabelInsert pick s l).assignments = s.assignments) ∧
    (eligibleExperts s.profiles s.assignments l.case_id ≠ [] →
      ∃ e : Nat,
        (∃ p ∈ s.profiles, p.user_id = e ∧ p.role = "expert") ∧
        (∀ a ∈ s.assignments, ¬(a.case_id = l.case_id ∧ a.expert_user_id = e)) ∧
        (afterLabelInsert pick s l).assignments =
          s.assignments ++ [{ case_id := l.case_id, expert_user_id := e }]) :=
  mismatch_nondual_outcome pick hmem hsome s l la lb hc hres ha hb hneq
    (by rw [hmode]; decide)

/-- C8: when no policy value is readable at decision time (`readReviewMode`
yields SQL NULL), the engine does not abort: it defaults the mode to
`triage` and continues exactly as in the triage branch — one `disputed`
resolution is recorded and the recruiter is invoked — so the missing value
is never fatal to the enclosing submission write. -/
theorem missing_policy_defaults_triage (pick : List Nat → Option Nat)
    (hmem : ∀ (el : List Nat) (e : Nat), pick el = some e → e ∈ el)
    (hsome : ∀ el : List Nat, el ≠ [] → (pick el).isSome = true)
    (s : DBState) (l la lb : LabelRow)
    (hc : (labelsFor (withLabel s l) l.case_id).length = 2)
    (hres : resolutionExists (withLabel s l) l.case_id = false)
    (ha : firstByCreatedAsc (labelsFor (withLabel s l) l.case_id) = some la)
    (hb : firstByCreatedDesc (labelsFor (withLabel s l) l.case_id) = some lb)
    (hneq : ¬ labels_equal la.payload lb.payload = some true)
    (hmode : readReviewMode s = none) :
    (afterLabelInsert pick s l).case_resolution =
      s.case_resolution ++ [{ case_id := l.case_id, status := "disputed", final_label_id := none }] ∧
    (eligibleExperts s.profiles s.assignments l.case_id = [] →
      (afterLabelInsert pick s l).assignments = s.assignments) ∧
    (eligibleExperts s.profiles s.assignments l.case_id ≠ [] →
      ∃ e : Nat,
        (∃ p ∈ s.profiles, p.user_id = e ∧ p.role = "expert") ∧
        (∀ a ∈ s.assignments, ¬(a.case_id = l.case_id ∧ a.expert_user_id = e)) ∧
        (afterLabelInsert pick s l).assignments =
          s.assignments ++ [{ case_id := l.case_id, expert_user_id := e }]) :=
  mismatch_nondual_outcome pick hmem hsome s l la lb hc hres ha hb hneq
    (by rw [hmode]; decide)

/-! ## A concrete pick function for witnesses -/

theorem headPick_mem (el : List Nat) (e : Nat) (h : el.head? = some e) : e ∈ el := by
  cases el with
  | nil => cases h
  | cons x t =>
    have hx : x = e := by simpa using h
    rw [← hx]
    exact List.mem_cons_self x t

theorem headPick_isSome (el : List Nat) (h : el ≠ []) : (el.head?).isSome = true := by
  cases el with
  | nil => exact absurd rfl h
  | cons x t => rfl

/-! ## The tie-break gap at the decision point -/

/-- C3 (refuting the claimed tie-break): the two fetch queries order by
`created_at` alone, with no secondary key. With two distinct submissions
sharing one timestamp but carrying different payloads, both the ASC and
the DESC top-1 fetch return the same row, so the engine compares that
payload of that row with itself and records an `agreed` resolution for a pair
that actually disagrees — not the two-distinct-rows deterministic load the
claim describes. -/
theorem tie_timestamp_same_row_agreed :
    labelA ≠ labelBtie ∧
    (labelsFor (withLabel disputeState labelBtie) 1).length = 2 ∧
    resolutionExists (withLabel disputeState labelBtie) 1 = false ∧
    firstByCreatedAsc (labelsFor (withLabel disputeState labelBtie) 1) = some labelA ∧
    firstByCreatedDesc (labelsFor (withLabel disputeState labelBtie) 1) = some labelA ∧
    ¬ labels_equal labelA.payload labelBtie.payload = some true ∧
    (afterLabelInsert List.head? disputeState labelBtie).case_resolution =
      [{ case_id := 1, status := "agreed", final_label_id := some 1 }] := by
  decide

/-! ## Witnesses instantiating the conditional theorems -/

theorem resolution_at_most_one_and_immutable_witness :
    (resolutionsFor emptyState 1).length ≤ 1 ∧
    ((resolutionsFor (applyInserts List.head? emptyState [labelA, labelB]) 1).length ≤ 1 ∧
     ∀ r : ResolutionRow, resolutionsFor emptyState 1 = [r] →
       resolutionsFor (applyInserts List.head? emptyState [labelA, labelB]) 1 = [r]) :=
  ⟨by decide,
   resolution_at_most_one_and_immutable List.head? emptyState [labelA, labelB] 1 (by decide)⟩

theorem engine_noop_outside_decision_point_witness :
    ((labelsFor (withLabel emptyState labelA) labelA.case_id).length ≠ 2 ∨
     resolutionExists (withLabel emptyState labelA) labelA.case_id = true) ∧
    (afterLabelInsert List.head? emptyState labelA = withLabel emptyState labelA ∧
     (afterLabelInsert List.head? emptyState labelA).case_resolution = emptyState.case_resolution ∧
     (afterLabelInsert List.head? emptyState labelA).assignments = emptyState.assignments) :=
  ⟨Or.inl (by decide),
   engine_noop_outside_decision_point List.head? emptyState labelA (Or.inl (by decide))⟩

theorem dual_mismatch_escalates_no_assignment_witness :
    (¬ labels_equal labelA.payload labelB.payload = some true) ∧
    readReviewMode dualState = some "dual" ∧
    (afterLabelInsert List.head? dualState labelB =
      { dualState with
          labels := dualState.labels ++ [labelB],
          case_resolution := dualState.case_resolution ++
            [{ case_id := labelB.case_id, status := "escalated", final_label_id := none }] } ∧
     (afterLabelInsert List.head? dualState labelB).assignments = dualState.assignments) :=
  ⟨by decide, by decide,
   dual_mismatch_escalates_no_assignment List.head? dualState labelB labelA labelB
     (by decide) (by decide) (by decide) (by decide) (by decide) (by decide)⟩

theorem triage_mismatch_disputed_recruits_witness :
    (afterLabelInsert List.head? disputeState labelB).case_resolution =
      disputeState.case_resolution ++
        [{ case_id := labelB.case_id, status := "disputed", final_label_id := none }] ∧
    (eligibleExperts disputeState.profiles disputeState.assignments labelB.case_id = [] →
      (afterLabelInsert List.head? disputeState labelB).assignments = disputeState.assignments) ∧
    (eligibleExperts disputeState.profiles disputeState.assignments labelB.case_id ≠ [] →
      ∃ e : Nat,
        (∃ p ∈ disputeState.profiles, p.user_id = e ∧ p.role = "expert") ∧
        (∀ a ∈ disputeState.assignments, ¬(a.case_id = labelB.case_id ∧ a.expert_user_id = e)) ∧
        (afterLabelInsert List.head? disputeState labelB).assignments =
          disputeState.assignments ++ [{ case_id := labelB.case_id, expert_user_id := e }]) :=
  triage_mismatch_disputed_recruits List.head? headPick_mem headPick_isSome
    disputeState labelB labelA labelB
    (by decide) (by decide) (by decide) (by decide) (by decide) (by decide)

theorem missing_policy_defaults_triage_witness :
    readReviewMode noPolicyState = none ∧
    ((afterLabelInsert List.head? noPolicyState labelB).case_resolution =
      noPolicyState.case_resolution ++
        [{ case_id := labelB.case_id, status := "disputed", final_label_id := none }] ∧
    (eligibleExperts noPolicyState.profiles noPolicyState.assignments labelB.case_id = [] →
      (afterLabelInsert List.head? noPolicyState labelB).assignments = noPolicyState.assignments) ∧
    (eligibleExperts noPolicyState.profiles noPolicyState.assignments labelB.case_id ≠ [] →
      ∃ e : Nat,
        (∃ p ∈ noPolicyState.profiles, p.user_id = e ∧ p.role = "expert") ∧
        (∀ a ∈ noPolicyState.assignments, ¬(a.case_id = labelB.case_id ∧ a.expert_user_id = e)) ∧
        (afterLabelInsert List.head? noPolicyState labelB).assignments =
          noPolicyState.assignments ++ [{ case_id := labelB.case_id, expert_user_id := e }])) :=
  ⟨by decide,
   missing_policy_defaults_triage List.head? headPick_mem headPick_isSome
     noPolicyState labelB labelA labelB
     (by decide) (by decide) (by decide) (by decide) (by decide) (by decide)⟩
